import Mathlib

/-!
Verification development for the Sentinel AI supervisor pipeline.

Shallow embedding of the pure / state-passing cores of:
  * `app/core/gemini_client.py`        (credential rotation manager)
  * `app/agents/debunker_agent.py`     (keyword extraction, Jaccard similarity, hit acceptance)
  * `app/agents/official_checker_agent.py`
  * `app/agents/media_cross_referencer.py`
  * `app/services/claim_extraction_service.py`
  * `app/services/scanner_service.py`  (priority selection, deep-gathering scheduler)

Text is modelled as `List Char` (Python `str`, ASCII fragment of `\w`/`\s`),
floats produced by exact small-integer division as `ℚ`, and the external
judgment / search collaborators as explicit value parameters describing their
observable outcome.
-/

namespace SentinelAI

/-! ### Python string primitives (ASCII model of `str.lower`, `re.sub`, `str.split`, `str.strip`) -/

/-- Python `\w` (ASCII fragment): alphanumeric or underscore. -/
def isWordChar (c : Char) : Bool := c.isAlphanum || c == '_'

/-- Python `\s` (ASCII fragment): the whitespace characters split on by `str.split()`. -/
def isSpaceChar (c : Char) : Bool := c == ' ' || c == '\t' || c == '\n' || c == '\r'

/-- `str.split()` worker: accumulates the current word (reversed) while scanning. -/
def splitWsAux : List Char → List Char → List (List Char)
  | [], acc => if acc = [] then [] else [acc.reverse]
  | c :: cs, acc =>
    if isSpaceChar c then
      if acc = [] then splitWsAux cs [] else acc.reverse :: splitWsAux cs []
    else splitWsAux cs (c :: acc)

/-- Python `str.split()` with no argument: split on whitespace runs, dropping empties. -/
def splitWs (s : List Char) : List (List Char) := splitWsAux s []

/-- Python `" ".join(ws)`. -/
def joinSpace : List (List Char) → List Char
  | [] => []
  | [w] => w
  | w :: ws => w ++ ' ' :: joinSpace ws

/-- Python `str.strip()` (leading and trailing whitespace removed). -/
def pyStrip (s : List Char) : List Char :=
  ((s.dropWhile isSpaceChar).reverse.dropWhile isSpaceChar).reverse

/-- `re.sub(r'\s+', ' ', s)`: each maximal whitespace run becomes a single blank.
The boolean argument records whether the previous character was whitespace. -/
def squeezeWsAux : List Char → Bool → List Char
  | [], _ => []
  | c :: cs, prevSpace =>
    if isSpaceChar c then
      if prevSpace then squeezeWsAux cs true else ' ' :: squeezeWsAux cs true
    else c :: squeezeWsAux cs false

def squeezeWs (s : List Char) : List Char := squeezeWsAux s false

/-- Python `needle in hay` helper: does `hay` start with `needle`? -/
def charsStartWith : List Char → List Char → Bool
  | [], _ => true
  | _ :: _, [] => false
  | a :: as, b :: bs => a == b && charsStartWith as bs

/-- Python substring test `needle in hay`. -/
def charsContain (needle : List Char) : List Char → Bool
  | [] => charsStartWith needle []
  | c :: cs => charsStartWith needle (c :: cs) || charsContain needle cs

/-- Python `s.lower()` (ASCII model). -/
def lowerChars (s : List Char) : List Char := s.map Char.toLower

/-- `re.sub(r'[^\w\s]', '', s)`: drop every character that is neither a word
character nor whitespace. -/
def stripPunct (s : List Char) : List Char :=
  s.filter (fun c => isWordChar c || isSpaceChar c)

/-! ### `app/agents/debunker_agent.py` -/

namespace DebunkerAgent

/-- `clean_text`: lowercase, remove punctuation, collapse whitespace, strip. -/
def clean_text (text : List Char) : List Char :=
  pyStrip (squeezeWs (stripPunct (lowerChars text)))

/-- `calculate_similarity`: Jaccard similarity of the two cleaned token sets,
`0` when either set is empty.  The Python float (a quotient of two small
naturals) is modelled as `ℚ`. -/
def calculate_similarity (text1 text2 : List Char) : ℚ :=
  let set1 := (splitWs (clean_text text1)).toFinset
  let set2 := (splitWs (clean_text text2)).toFinset
  if set1 = ∅ ∨ set2 = ∅ then 0
  else ((set1 ∩ set2).card : ℚ) / ((set1 ∪ set2).card : ℚ)

/-- The fixed stop-word set of `debunker_agent.extract_keywords`. -/
def stop_words : List (List Char) :=
  ["is", "are", "was", "were", "the", "a", "an", "in", "on", "at",
   "to", "for", "of", "with", "by", "i", "it", "this", "that"].map String.toList

/-- `extract_keywords`: clean, drop stop words and tokens of length ≤ 2,
join the first 6 survivors. -/
def extract_keywords (claim_text : List Char) : List Char :=
  let clean_tokens := splitWs (clean_text claim_text)
  let words := clean_tokens.filter
    (fun w => decide (w ∉ stop_words) && decide (2 < w.length))
  joinSpace (words.take 6)

/-- One hit returned by the search collaborator (`title`/`href`/`body` fields). -/
structure SearchHit where
  title : List Char
  href : List Char
  body : List Char
deriving DecidableEq

/-- The explicit debunk marker terms scanned for in `search_fact_check_database`. -/
def debunk_markers : List (List Char) :=
  ["false", "fake", "hoax", "misleading", "old video", "doctored"].map String.toList

/-- `is_explicit_debunk`: any marker occurs in the lowercased title or snippet. -/
def is_explicit_debunk (title snippet : List Char) : Bool :=
  debunk_markers.any (fun x => charsContain x (lowerChars title) || charsContain x (lowerChars snippet))

/-- The acceptance test applied to each hit inside `search_fact_check_database`:
`similarity >= threshold or is_explicit_debunk`. -/
def accepts_hit (query : List Char) (threshold : ℚ) (res : SearchHit) : Bool :=
  decide (threshold ≤ calculate_similarity query res.title) || is_explicit_debunk res.title res.body

/-- `search_fact_check_database`, with the search collaborator's hit list made an
explicit argument: the evidence kept is exactly the accepted hits, in order. -/
def search_fact_check_database (query : List Char) (threshold : ℚ)
    (results : List SearchHit) : List SearchHit :=
  results.filter (accepts_hit query threshold)

/-- The query string `find_debunks` actually hands to `search_fact_check_database`:
the extracted keywords, or — when extraction produced an empty or sub-3-character
string — the raw claim text itself. -/
def effective_query (claim_text : List Char) : List Char :=
  let keywords := extract_keywords claim_text
  if keywords = [] ∨ keywords.length < 3 then claim_text else keywords

/-- `find_debunks` always issues exactly one search; this returns its query. -/
def find_debunks_query (claim_text : List Char) : Option (List Char) :=
  some (effective_query claim_text)

/-- Default `threshold` parameter of `find_debunks`. -/
def default_threshold : ℚ := 0.20

/-- The hits `find_debunks claim_text` accepts from a given result list. -/
def find_debunks_accepted (claim_text : List Char) (results : List SearchHit) : List SearchHit :=
  search_fact_check_database (effective_query claim_text) default_threshold results

end DebunkerAgent

/-! ### `app/agents/official_checker_agent.py` -/

namespace OfficialCheckerAgent

/-- The fixed stop-word set of `official_checker_agent.extract_keywords`. -/
def stop_words : List (List Char) :=
  ["is", "are", "was", "were", "the", "a", "an", "in", "on", "at", "to", "for",
   "of", "with", "by", "has", "have", "had", "been", "it", "this", "that", "i",
   "official", "confirmed", "news", "report", "fake", "real", "check"].map String.toList

/-- `extract_keywords`: `re.sub(r'[^\w\s]', '', text.lower()).split()`, drop stop
words and tokens of length ≤ 2, join the first 6 survivors. -/
def extract_keywords (text : List Char) : List Char :=
  let clean_chars := stripPunct (lowerChars text)
  let words := (splitWs clean_chars).filter
    (fun w => decide (w ∉ stop_words) && decide (2 < w.length))
  joinSpace (words.take 6)

/-- The search query `check_sources` issues, or `none` when it returns the
"too vague" sentinel without searching (`not search_query or len(keywords_list) < 2`). -/
def check_sources_query (claim_text : List Char) : Option (List Char) :=
  let search_query := extract_keywords claim_text
  let keywords_list := splitWs search_query
  if search_query = [] ∨ keywords_list.length < 2 then none else some search_query

end OfficialCheckerAgent

/-! ### `app/agents/media_cross_referencer.py` -/

namespace MediaCrossReferencer

/-- The fixed stop-word set of `media_cross_referencer.extract_search_query`. -/
def stop_words : List (List Char) :=
  ["is", "are", "was", "were", "the", "a", "an", "in", "on", "at", "to",
   "has", "have", "had", "been", "it", "that", "this", "from", "by", "of",
   "near", "about", "some", "few", "reportedly", "allegedly", "breaking",
   "viral", "video", "fake", "rumor"].map String.toList

/-- `extract_search_query`: clean, drop stop words and short tokens, join the
first 7 survivors; empty string when no token survives. -/
def extract_search_query (claim_text : List Char) : List Char :=
  let clean_chars := stripPunct (lowerChars claim_text)
  let words := (splitWs clean_chars).filter
    (fun w => decide (w ∉ stop_words) && decide (2 < w.length))
  if words = [] then [] else joinSpace (words.take 7)

/-- The search query `check_media` issues, or `none` when it returns the
"insufficient" sentinel without searching (`if not search_query`). -/
def check_media_query (claim_text : List Char) : Option (List Char) :=
  let search_query := extract_search_query claim_text
  if search_query = [] then none else some search_query

end MediaCrossReferencer

/-! ### `app/core/gemini_client.py` — `GeminiRotationManager` -/

namespace GeminiRotationManager

/-- Observable outcome of one underlying `model.generate_content_async` call
made while a given credential index is active. -/
inductive CallOutcome
  | success
  | rateLimited
  | otherError
deriving DecidableEq

/-- Result of `generate_content_async`, tagged with the number of underlying
calls (attempts) that were made. -/
inductive GenResult
  | ok (attempts : Nat)
  | exhausted (attempts : Nat)
  | failed (attempts : Nat)
deriving DecidableEq

/-- The retry loop of `generate_content_async` (`for attempt in range(max_retries + 1)`
with `max_retries = len(self.keys)`), single-caller semantics: `behavior i` is the
outcome of calling the service with credential `i` active.  `remaining` is the
number of retries still allowed (`max_retries - attempt`), `idx` the active
credential index, `made` the number of calls already made. -/
def generateGo (behavior : Nat → CallOutcome) (n : Nat) :
    Nat → Nat → Nat → GenResult
  | 0, idx, made =>
    match behavior idx with
    | .success => .ok (made + 1)
    | .otherError => .failed (made + 1)
    | .rateLimited => .exhausted (made + 1)
  | remaining + 1, idx, made =>
    match behavior idx with
    | .success => .ok (made + 1)
    | .otherError => .failed (made + 1)
    | .rateLimited => generateGo behavior n remaining ((idx + 1) % n) (made + 1)

/-- `generate_content_async` for a pool of `n` credentials, starting from
active index `idx`. -/
def generate_content_async (n : Nat) (behavior : Nat → CallOutcome) (idx : Nat) : GenResult :=
  generateGo behavior n n idx 0

end GeminiRotationManager

/-! ### `app/services/claim_extraction_service.py` -/

namespace ClaimExtractionService

/-- One entry of the parsed `claims` array: `none` models a non-dict entry;
the `text`/`location` fields are `none` when the key is absent. -/
structure RawClaim where
  text : Option (List Char)
  location : Option (List Char)
deriving DecidableEq

/-- Outcome of `json.loads` on the cleaned judgment-service output. -/
inductive JsonOutcome
  | invalid
  | valid (claims : List (Option RawClaim))
deriving DecidableEq

/-- Observable outcome of the judgment-service call inside `extract_claims`:
an exception, or a text whose JSON parse outcome is given. -/
inductive ServiceResult
  | exn
  | ok (j : JsonOutcome)
deriving DecidableEq

/-- A validated claim produced by `extract_claims`. -/
structure ExtractedClaim where
  text : List Char
  location : List Char
deriving DecidableEq

/-- `extract_claims`, with the judgment-service outcome made an explicit
argument.  Short input, a service exception and invalid JSON each yield `[]`;
otherwise each dict entry with a `text` key whose stripped text is longer than
5 characters yields one claim, location defaulting to `"Unknown"`. -/
def extract_claims (article_text : List Char) (svc : ServiceResult) :
    List ExtractedClaim :=
  if article_text = [] ∨ (pyStrip article_text).length < 5 then []
  else
    match svc with
    | .exn => []
    | .ok .invalid => []
    | .ok (.valid raw_claims) =>
      raw_claims.filterMap (fun entry =>
        match entry with
        | none => none
        | some c =>
          match c.text with
          | none => none
          | some t =>
            let ct := pyStrip t
            let cl := pyStrip (c.location.getD ("Unknown".toList))
            if 5 < ct.length then some ⟨ct, cl⟩ else none)

end ClaimExtractionService

/-! ### `app/services/scanner_service.py` -/

namespace ScannerService

/-- Tracked crisis record (the fields of the `Crisis` model used by the
scanner: UUID ids modelled as `Nat`, `severity` an integer). -/
structure Crisis where
  id : Nat
  name : String
  keywords : String
  severity : Int
  location : String
deriving DecidableEq

instance : Inhabited Crisis := ⟨⟨0, "", "", 0, ""⟩⟩

def MAX_CONCURRENT_SCANS : Nat := 5

def HIGH_RISK_SCAN_INTERVAL : Int := 120

/-! #### Phase-2 agentic selection -/

/-- Observable outcome of the judgment call inside `perform_agentic_selection`:
a successfully parsed `selected_ids` list, or any error (service exception or
malformed JSON — both land in the `except` branch). -/
inductive SelectionOutcome
  | response (ids : List Nat)
  | error
deriving DecidableEq

/-- `_fallback_pruning`: sort the tracked set by severity descending (stable,
like Python `list.sort`), keep the top 10, delete the rest.  The returned list
is the surviving tracked set, in its original order. -/
def fallback_pruning (crises : List Crisis) : List Crisis :=
  let sorted := List.insertionSort (fun a b => b.severity ≤ a.severity) crises
  let keep := sorted.take 10
  let keepIds := keep.map (·.id)
  crises.filter (fun c => decide (c.id ∈ keepIds))

/-- `perform_agentic_selection`: no-op on an empty tracked set; keep exactly
the crises whose id is in the judgment's nonempty selection; fall back to
deterministic pruning on an empty selection or any error. -/
def perform_agentic_selection (crises : List Crisis) (out : SelectionOutcome) :
    List Crisis :=
  if crises = [] then crises
  else
    match out with
    | .error => fallback_pruning crises
    | .response keep_ids =>
      if keep_ids = [] then fallback_pruning crises
      else crises.filter (fun c => decide (c.id ∈ keep_ids))

/-! #### Phase-2 deep-gathering batch construction -/

/-- The high-risk crises whose elapsed time since last scan exceeds
`HIGH_RISK_SCAN_INTERVAL` (the dictionary default for a never-scanned id is 0,
kept in the `lastScan` function itself). -/
def due_high_risk (crises : List Crisis) (lastScan : Nat → Int) (now : Int) :
    List Crisis :=
  (crises.filter (fun c => decide (90 ≤ c.severity))).filter
    (fun c => decide (HIGH_RISK_SCAN_INTERVAL < now - lastScan c.id))

/-- The round-robin fill loop (`for _ in range(slots)`): pick the normal-risk
crisis at the cursor, append it unless already batched, advance the cursor. -/
def fillNormal (normal_risk : List Crisis) :
    Nat → List Crisis → Nat → List Crisis × Nat
  | 0, batch, ptr => (batch, ptr)
  | slots + 1, batch, ptr =>
    let c := normal_risk.getD (ptr % normal_risk.length) default
    let batch' := if c ∈ batch then batch else batch ++ [c]
    fillNormal normal_risk slots batch' (ptr + 1)

/-- One tick's batch construction in `run_deep_gathering_phase`: every due
high-risk crisis, then a fill of the remaining capacity from the normal-risk
round-robin.  Returns the batch and the advanced cursor. -/
def buildBatch (crises : List Crisis) (lastScan : Nat → Int) (now : Int)
    (ptr : Nat) : List Crisis × Nat :=
  let normal_risk := crises.filter (fun c => decide (c.severity < 90))
  let batch := due_high_risk crises lastScan now
  let slots := MAX_CONCURRENT_SCANS - batch.length
  if 0 < slots ∧ normal_risk ≠ [] then fillNormal normal_risk slots batch ptr
  else (batch, ptr)

/-- Scheduler state across ticks: the `last_scan_times` map (absent keys read
as 0) and the `normal_queue_ptr` cursor. -/
structure SchedState where
  lastScan : Nat → Int
  ptr : Nat

/-- Input of one `while` iteration: the freshly fetched tracked set and the
tick's `time.time()` value. -/
structure TickInput where
  crises : List Crisis
  now : Int

/-- One iteration: build the batch, record each batched id's scan timestamp
(before dispatch), return the dispatched batch ids with their dispatch time. -/
def runTick (s : SchedState) (t : TickInput) : SchedState × (List Nat × Int) :=
  let bp := buildBatch t.crises s.lastScan t.now s.ptr
  let ids := bp.1.map (·.id)
  (⟨fun k => if k ∈ ids then t.now else s.lastScan k, bp.2⟩, (ids, t.now))

/-- The trace of dispatched batches (each as its id list with its dispatch
time) produced by iterating `runTick` from state `s`. -/
def runTicks (s : SchedState) : List TickInput → List (List Nat × Int)
  | [] => []
  | t :: ts =>
    let r := runTick s t
    r.2 :: runTicks r.1 ts

/-- State at entry of `run_deep_gathering_phase`: empty `last_scan_times`
(every id reads 0) and cursor 0. -/
def initialSchedState : SchedState := ⟨fun _ => 0, 0⟩

end ScannerService

/-! ### `app/services/verification_orchestrator.py` (collaborator, modelled) -/

namespace VerificationOrchestrator

/-- Modelled from the spec: the `verification_orchestrator` module is not among
the provided sources (only its callers in `scanner_service.py` and
`crisis_router.py` are).  §4.3: a TimelineItem is keyed by claim text within a
crisis scope (`crisis_id` nullable for ad-hoc runs). -/
structure TimelineRecord where
  crisis_id : Option Nat
  claim_text : String
deriving DecidableEq

/-- Number of TimelineItems in the store carrying this exact claim text in
this crisis scope. -/
def timeline_key_count (store : List TimelineRecord) (claim : String)
    (scope : Option Nat) : Nat :=
  store.countP (fun r => decide (r.crisis_id = scope ∧ r.claim_text = claim))

/-- Modelled from the spec: `run_verification_pipeline` (§4.3) — before any
network work, check whether a TimelineItem with this exact claim text already
exists for this crisis scope; if so, do nothing (the returned flag records
whether network work was performed); otherwise run the agents and persist
exactly one new TimelineItem for this claim. -/
def run_verification_pipeline (store : List TimelineRecord) (claim : String)
    (scope : Option Nat) : List TimelineRecord × Bool :=
  if store.any (fun r => decide (r.crisis_id = scope ∧ r.claim_text = claim)) then
    (store, false)
  else
    (store ++ [⟨scope, claim⟩], true)

/-- The store after `n` repeated invocations with the same claim and scope. -/
def iterate_verification (store : List TimelineRecord) (claim : String)
    (scope : Option Nat) : Nat → List TimelineRecord
  | 0 => store
  | n + 1 => (run_verification_pipeline (iterate_verification store claim scope n) claim scope).1

end VerificationOrchestrator

/-! ### Concrete inputs used by counterexamples and witnesses -/

/-- Eleven tracked crises with distinct ids and equal severity. -/
def cap_cex_crises : List ScannerService.Crisis :=
  (List.range 11).map (fun i => ⟨i, "c", "k", 50, "l"⟩)

/-- A two-element tracked set. -/
def wit_crises : List ScannerService.Crisis :=
  [⟨1, "a", "k", 80, "x"⟩, ⟨2, "b", "k", 60, "y"⟩]

/-- Six high-severity crises, none scanned yet. -/
def batch_cex_crises : List ScannerService.Crisis :=
  (List.range 6).map (fun i => ⟨i, "h", "k", 95, "x"⟩)

/-- One due high-severity crisis and one normal crisis. -/
def batch_wit_crises : List ScannerService.Crisis :=
  [⟨0, "h", "k", 95, "x"⟩, ⟨1, "n", "k", 50, "y"⟩]

/-- Two scheduler ticks, 200 s apart, both offering the same high-severity crisis. -/
def spacing_ticks : List ScannerService.TickInput :=
  [⟨[⟨7, "h", "k", 95, "x"⟩], 200⟩, ⟨[⟨7, "h", "k", 95, "x"⟩], 400⟩]

/-- A claim text consisting only of stop words and short tokens. -/
def vague_claim : List Char := "Is it in on at?".toList

/-!
## Lemmas on the string primitives
-/

/-- Every word produced by `splitWsAux` is nonempty and whitespace-free,
provided the accumulator holds no whitespace. -/
theorem splitWsAux_word_props (s : List Char) :
    ∀ acc, (∀ c ∈ acc, isSpaceChar c = false) →
      ∀ w ∈ splitWsAux s acc, w ≠ [] ∧ ∀ c ∈ w, isSpaceChar c = false := by
  induction s with
  | nil =>
    intro acc hacc w hw
    by_cases h : acc = []
    · simp [splitWsAux, h] at hw
    · simp only [splitWsAux, if_neg h, List.mem_singleton] at hw
      subst hw
      refine ⟨by simpa using h, fun c hc => hacc c (List.mem_reverse.mp hc)⟩
  | cons c cs ih =>
    intro acc hacc w hw
    by_cases hsp : isSpaceChar c = true
    · by_cases h : acc = []
      · simp only [splitWsAux, hsp, if_true, h, if_pos] at hw
        exact ih [] (by simp) w hw
      · simp only [splitWsAux, hsp, if_true, if_neg h] at hw
        rcases List.mem_cons.mp hw with rfl | hw'
        · refine ⟨by simpa using h, fun x hx => hacc x (List.mem_reverse.mp hx)⟩
        · exact ih [] (by simp) w hw'
    · simp only [splitWsAux, hsp, if_false] at hw
      refine ih (c :: acc) ?_ w hw
      intro x hx
      rcases List.mem_cons.mp hx with rfl | hx'
      · simpa using hsp
      · exact hacc x hx'

/-- Every word of a Python `split()` is nonempty and whitespace-free. -/
theorem splitWs_word_props (s : List Char) :
    ∀ w ∈ splitWs s, w ≠ [] ∧ ∀ c ∈ w, isSpaceChar c = false :=
  splitWsAux_word_props s [] (by simp)

/-- Scanning a whitespace-free block just moves it into the accumulator. -/
theorem splitWsAux_word_append (rest : List Char) :
    ∀ (w acc : List Char), (∀ c ∈ w, isSpaceChar c = false) →
      splitWsAux (w ++ rest) acc = splitWsAux rest (w.reverse ++ acc) := by
  intro w
  induction w with
  | nil => intro acc _; simp
  | cons a as ih =>
    intro acc h
    have ha : isSpaceChar a = false := h a (by simp)
    simp only [List.cons_append, splitWsAux, ha, Bool.false_eq_true, if_false, List.append_eq]
    rw [ih (a :: acc) (fun c hc => h c (by simp [hc]))]
    simp

/-- Splitting a single nonempty whitespace-free word returns just that word. -/
theorem splitWs_single (w : List Char) (hne : w ≠ [])
    (hnsp : ∀ c ∈ w, isSpaceChar c = false) : splitWs w = [w] := by
  have h := splitWsAux_word_append [] w [] hnsp
  rw [List.append_nil] at h
  rw [splitWs, h]
  simp [splitWsAux, hne]

/-- `" ".join` followed by `split()` recovers any list of nonempty
whitespace-free words. -/
theorem splitWs_joinSpace :
    ∀ ws : List (List Char),
      (∀ w ∈ ws, w ≠ [] ∧ ∀ c ∈ w, isSpaceChar c = false) →
      splitWs (joinSpace ws) = ws := by
  intro ws
  induction ws with
  | nil => intro _; rfl
  | cons w ws ih =>
    intro h
    obtain ⟨hne, hnsp⟩ := h w (by simp)
    cases ws with
    | nil => exact splitWs_single w hne hnsp
    | cons w' ws' =>
      have step := splitWsAux_word_append (' ' :: joinSpace (w' :: ws')) w [] hnsp
      rw [List.append_nil] at step
      have hrw : joinSpace (w :: w' :: ws') = w ++ ' ' :: joinSpace (w' :: ws') := rfl
      rw [splitWs, hrw, step]
      have hsp : isSpaceChar ' ' = true := by decide
      have hrev : w.reverse ≠ [] := by simpa using hne
      simp only [splitWsAux, hsp, if_true, if_neg hrev]
      rw [List.reverse_reverse]
      exact congrArg (w :: ·) (ih (fun v hv => h v (by simp [hv])))

/-- Splitting the join of the first `k` surviving filtered tokens recovers them. -/
theorem splitWs_join_filtered (s : List Char) (p : List Char → Bool) (k : Nat) :
    splitWs (joinSpace (((splitWs s).filter p).take k)) =
      ((splitWs s).filter p).take k := by
  apply splitWs_joinSpace
  intro w hw
  exact splitWs_word_props s w (List.mem_of_mem_filter (List.take_subset _ _ hw))

/-- Tokens surviving a filtered `split()` satisfy the filter's predicate. -/
theorem mem_filtered_take {l : List (List Char)} {p : List Char → Bool} {k : Nat}
    {w : List Char} (hw : w ∈ (l.filter p).take k) : p w = true :=
  (List.mem_filter.mp (List.take_subset _ _ hw)).2

/-!
## C6 — keyword extraction
-/

/-- C6: keyword extraction (both the debunk-archive and the official-source
variant) lowercases, strips punctuation, drops the agent's fixed stop-word
set, keeps only tokens longer than 2 characters, and returns the first 6
surviving tokens joined in their original order; no stop word of the
respective set survives, and the documented example extracts the expected
token sequence. -/
theorem keyword_extraction_spec (s : List Char) :
    (splitWs (DebunkerAgent.extract_keywords s) =
      ((splitWs (DebunkerAgent.clean_text s)).filter
        (fun w => decide (w ∉ DebunkerAgent.stop_words) && decide (2 < w.length))).take 6)
    ∧ (∀ w ∈ splitWs (DebunkerAgent.extract_keywords s),
        w ∉ DebunkerAgent.stop_words ∧ 2 < w.length)
    ∧ (splitWs (OfficialCheckerAgent.extract_keywords s) =
      ((splitWs (stripPunct (lowerChars s))).filter
        (fun w => decide (w ∉ OfficialCheckerAgent.stop_words) && decide (2 < w.length))).take 6)
    ∧ (∀ w ∈ splitWs (OfficialCheckerAgent.extract_keywords s),
        w ∉ OfficialCheckerAgent.stop_words ∧ 2 < w.length)
    ∧ splitWs (DebunkerAgent.extract_keywords
        ("Breaking: Dam burst in City, 50 feared dead".toList)) =
        ["breaking".toList, "dam".toList, "burst".toList, "city".toList,
         "feared".toList, "dead".toList] := by
  have h1 : splitWs (DebunkerAgent.extract_keywords s) =
      ((splitWs (DebunkerAgent.clean_text s)).filter
        (fun w => decide (w ∉ DebunkerAgent.stop_words) && decide (2 < w.length))).take 6 :=
    splitWs_join_filtered (DebunkerAgent.clean_text s) _ 6
  have h3 : splitWs (OfficialCheckerAgent.extract_keywords s) =
      ((splitWs (stripPunct (lowerChars s))).filter
        (fun w => decide (w ∉ OfficialCheckerAgent.stop_words) && decide (2 < w.length))).take 6 :=
    splitWs_join_filtered (stripPunct (lowerChars s)) _ 6
  refine ⟨h1, ?_, h3, ?_, by decide⟩
  · intro w hw
    rw [h1] at hw
    have hp := mem_filtered_take hw
    rw [Bool.and_eq_true, decide_eq_true_eq, decide_eq_true_eq] at hp
    exact hp
  · intro w hw
    rw [h3] at hw
    have hp := mem_filtered_take hw
    rw [Bool.and_eq_true, decide_eq_true_eq, decide_eq_true_eq] at hp
    exact hp

/-- C6 witness: the token properties instantiated at the documented example. -/
theorem keyword_extraction_spec_witness :
    "breaking".toList ∈ splitWs (DebunkerAgent.extract_keywords
      ("Breaking: Dam burst in City, 50 feared dead".toList))
    ∧ ("breaking".toList ∉ DebunkerAgent.stop_words ∧ 2 < "breaking".toList.length) :=
  ⟨by decide,
    (keyword_extraction_spec ("Breaking: Dam burst in City, 50 feared dead".toList)).2.1
      ("breaking".toList) (by decide)⟩

/-!
## C7 — Jaccard similarity
-/

/-- The cleaned token set a text contributes to the Jaccard similarity. -/
def jaccard_token_set (text : List Char) : Finset (List Char) :=
  (splitWs (DebunkerAgent.clean_text text)).toFinset

/-- C7: the similarity is the intersection-over-union of the two cleaned token
sets, is 0 whenever either set is empty, is symmetric, and is positive on the
documented example pair. -/
theorem similarity_spec (a b : List Char) :
    (DebunkerAgent.calculate_similarity a b =
      if jaccard_token_set a = ∅ ∨ jaccard_token_set b = ∅ then 0
      else ((jaccard_token_set a ∩ jaccard_token_set b).card : ℚ) /
           ((jaccard_token_set a ∪ jaccard_token_set b).card : ℚ))
    ∧ DebunkerAgent.calculate_similarity a b = DebunkerAgent.calculate_similarity b a
    ∧ (jaccard_token_set a = ∅ ∨ jaccard_token_set b = ∅ →
        DebunkerAgent.calculate_similarity a b = 0)
    ∧ 0 < DebunkerAgent.calculate_similarity ("aliens landed in city".toList)
        ("no aliens landed in city".toList) := by
  have hchar : ∀ x y : List Char, DebunkerAgent.calculate_similarity x y =
      if jaccard_token_set x = ∅ ∨ jaccard_token_set y = ∅ then 0
      else ((jaccard_token_set x ∩ jaccard_token_set y).card : ℚ) /
           ((jaccard_token_set x ∪ jaccard_token_set y).card : ℚ) :=
    fun x y => rfl
  refine ⟨hchar a b, ?_, ?_, ?_⟩
  · rw [hchar a b, hchar b a]
    by_cases h : jaccard_token_set a = ∅ ∨ jaccard_token_set b = ∅
    · rw [if_pos h, if_pos h.symm]
    · rw [if_neg h, if_neg (fun hc => h hc.symm),
        Finset.inter_comm, Finset.union_comm]
  · intro h
    rw [hchar a b, if_pos h]
  · have hcond : ¬ (jaccard_token_set ("aliens landed in city".toList) = ∅ ∨
        jaccard_token_set ("no aliens landed in city".toList) = ∅) := by decide
    have hinter : (jaccard_token_set ("aliens landed in city".toList) ∩
        jaccard_token_set ("no aliens landed in city".toList)).card = 4 := by decide
    have hunion : (jaccard_token_set ("aliens landed in city".toList) ∪
        jaccard_token_set ("no aliens landed in city".toList)).card = 5 := by decide
    rw [hchar, if_neg hcond, hinter, hunion]
    norm_num

/-- C7 witness: at a concrete pair with an empty first token set the
similarity evaluates to 0. -/
theorem similarity_spec_witness :
    (jaccard_token_set ("...".toList) = ∅ ∨ jaccard_token_set ("hoax".toList) = ∅)
    ∧ DebunkerAgent.calculate_similarity ("...".toList) ("hoax".toList) = 0 :=
  ⟨Or.inl (by decide), (similarity_spec ("...".toList) ("hoax".toList)).2.2.1 (Or.inl (by decide))⟩

/-!
## C8 — debunk-archive hit acceptance
-/

/-- C8: a hit is kept as evidence by the fact-check database scan iff its
headline's token-set similarity to the query reaches the threshold or the
headline/snippet carries an explicit debunk marker; `find_debunks` applies
this with its default threshold 0.20. -/
theorem debunk_hit_acceptance (query : List Char) (threshold : ℚ)
    (results : List DebunkerAgent.SearchHit) (res : DebunkerAgent.SearchHit) :
    (res ∈ DebunkerAgent.search_fact_check_database query threshold results ↔
      res ∈ results ∧
        (threshold ≤ DebunkerAgent.calculate_similarity query res.title ∨
          DebunkerAgent.is_explicit_debunk res.title res.body = true))
    ∧ DebunkerAgent.find_debunks_accepted query results =
        DebunkerAgent.search_fact_check_database
          (DebunkerAgent.effective_query query) (0.20 : ℚ) results := by
  constructor
  · simp [DebunkerAgent.search_fact_check_database, DebunkerAgent.accepts_hit,
      List.mem_filter, Bool.or_eq_true, decide_eq_true_eq]
  · rfl

/-!
## C9 — behavior of the agents on claims with empty keyword extraction
-/

/-- C9 counterexample: on a claim made only of stop words keyword extraction
is empty, yet `find_debunks` still issues a search — with the raw claim text
as its query — instead of skipping the agent. -/
theorem debunker_no_skip_on_empty_keywords :
    DebunkerAgent.extract_keywords vague_claim = []
    ∧ DebunkerAgent.find_debunks_query vague_claim = some vague_claim := by decide

/-- C9 (amended): on empty keyword extraction the official-source and media
agents skip their search work, while the debunk-archive agent falls back to
searching the raw claim text. -/
theorem agents_on_vague_claims (c : List Char)
    (h1 : OfficialCheckerAgent.extract_keywords c = [])
    (h2 : MediaCrossReferencer.extract_search_query c = [])
    (h3 : DebunkerAgent.extract_keywords c = []) :
    OfficialCheckerAgent.check_sources_query c = none
    ∧ MediaCrossReferencer.check_media_query c = none
    ∧ DebunkerAgent.find_debunks_query c = some c := by
  refine ⟨?_, ?_, ?_⟩
  · simp [OfficialCheckerAgent.check_sources_query, h1]
  · simp [MediaCrossReferencer.check_media_query, h2]
  · simp [DebunkerAgent.find_debunks_query, DebunkerAgent.effective_query, h3]

/-- C9 witness: the amended behavior at the concrete vague claim. -/
theorem agents_on_vague_claims_witness :
    (OfficialCheckerAgent.extract_keywords vague_claim = []
      ∧ MediaCrossReferencer.extract_search_query vague_claim = []
      ∧ DebunkerAgent.extract_keywords vague_claim = [])
    ∧ (OfficialCheckerAgent.check_sources_query vague_claim = none
      ∧ MediaCrossReferencer.check_media_query vague_claim = none
      ∧ DebunkerAgent.find_debunks_query vague_claim = some vague_claim) :=
  ⟨⟨by decide, by decide, by decide⟩,
    agents_on_vague_claims vague_claim (by decide) (by decide) (by decide)⟩

/-!
## C10 — robustness of claim extraction
-/

/-- Dissection of a claim returned on the successful-parse path of
`extract_claims`: it stems from a dict entry with a `text` key, its stripped
text is longer than 5 characters, and its location is the stripped raw
location defaulting to `"Unknown"`. -/
theorem extract_claims_mem (article : List Char)
    (raw : List (Option ClaimExtractionService.RawClaim))
    (e : ClaimExtractionService.ExtractedClaim)
    (he : e ∈ ClaimExtractionService.extract_claims article (.ok (.valid raw))) :
    ∃ c, some c ∈ raw ∧ ∃ t, c.text = some t ∧ 5 < (pyStrip t).length ∧
      e.text = pyStrip t ∧
      e.location = pyStrip (c.location.getD ("Unknown".toList)) := by
  unfold ClaimExtractionService.extract_claims at he
  split at he
  · simp at he
  · rw [List.mem_filterMap] at he
    obtain ⟨entry, hent, hf⟩ := he
    match entry with
    | none => simp at hf
    | some c =>
      match hct : c.text with
      | none => simp [hct] at hf
      | some t =>
        simp only [hct] at hf
        split at hf
        · next hlen =>
          obtain rfl := Option.some_inj.mp hf
          exact ⟨c, hent, t, hct, hlen, rfl, rfl⟩
        · simp at hf

/-- C10: `extract_claims` is total — short input, a judgment-service
exception and unparsable output each give the empty list — and every
returned entry carries a claim text longer than 5 characters plus a location
defaulting to `"Unknown"`. -/
theorem extract_claims_robustness (article : List Char)
    (svc : ClaimExtractionService.ServiceResult) :
    ((pyStrip article).length < 5 →
      ClaimExtractionService.extract_claims article svc = [])
    ∧ ClaimExtractionService.extract_claims article .exn = []
    ∧ ClaimExtractionService.extract_claims article (.ok .invalid) = []
    ∧ (∀ e ∈ ClaimExtractionService.extract_claims article svc, 5 < e.text.length)
    ∧ (∀ raw, ∀ e ∈ ClaimExtractionService.extract_claims article (.ok (.valid raw)),
        ∃ c, some c ∈ raw ∧ ∃ t, c.text = some t ∧ e.text = pyStrip t ∧
          e.location = pyStrip (c.location.getD ("Unknown".toList))) := by
  refine ⟨?_, ?_, ?_, ?_, ?_⟩
  · intro h
    unfold ClaimExtractionService.extract_claims
    rw [if_pos (Or.inr h)]
  · unfold ClaimExtractionService.extract_claims
    split <;> rfl
  · unfold ClaimExtractionService.extract_claims
    split <;> rfl
  · intro e he
    match svc with
    | .exn =>
      unfold ClaimExtractionService.extract_claims at he
      split at he <;> simp at he
    | .ok .invalid =>
      unfold ClaimExtractionService.extract_claims at he
      split at he <;> simp at he
    | .ok (.valid raw) =>
      obtain ⟨c, -, t, -, hlen, hte, -⟩ := extract_claims_mem article raw e he
      rw [hte]
      exact hlen
  · intro raw e he
    obtain ⟨c, hc, t, hct, -, hte, hle⟩ := extract_claims_mem article raw e he
    exact ⟨c, hc, t, hct, hte, hle⟩

/-- C10 witness: a frame-level instantiation — too-short input with a failing
service yields the empty list. -/
theorem extract_claims_robustness_witness :
    (pyStrip ("abc".toList)).length < 5
    ∧ ClaimExtractionService.extract_claims ("abc".toList) .exn = [] :=
  ⟨by decide, (extract_claims_robustness ("abc".toList) .exn).1 (by decide)⟩

/-!
## C2 — credential rotation exhaustion
-/

/-- When every credential is rate-limited, the retry loop makes exactly one
call per remaining retry plus the final fatal one. -/
theorem generateGo_all_rate_limited (behavior : Nat → GeminiRotationManager.CallOutcome)
    (n : Nat) (h : ∀ i, behavior i = .rateLimited) :
    ∀ r idx made, GeminiRotationManager.generateGo behavior n r idx made =
      .exhausted (made + r + 1) := by
  intro r
  induction r with
  | zero =>
    intro idx made
    simp only [GeminiRotationManager.generateGo, h idx]
  | succ r ih =>
    intro idx made
    have hstep : GeminiRotationManager.generateGo behavior n (r + 1) idx made =
        GeminiRotationManager.generateGo behavior n r ((idx + 1) % n) (made + 1) := by
      simp only [GeminiRotationManager.generateGo, h idx]
    rw [hstep, ih ((idx + 1) % n) (made + 1)]
    congr 1
    omega

/-- C2 counterexample: with a pool of 3 credentials all rate-limited, the call
raises the exhaustion kind only after 4 attempts — not after exactly 3. -/
theorem rotation_three_keys_cex :
    GeminiRotationManager.generate_content_async 3 (fun _ => .rateLimited) 0 =
      .exhausted 4
    ∧ GeminiRotationManager.generate_content_async 3 (fun _ => .rateLimited) 0 ≠
      .exhausted 3 := by decide

/-- C2 (amended): with a pool of `n` credentials all rate-limited,
`generate_content_async` raises the fatal exhaustion kind after exactly
`n + 1` attempts (the initial attempt plus `n` rotation retries — one full
loop of the pool), and never more. -/
theorem rotation_exhaustion (n idx : Nat)
    (behavior : Nat → GeminiRotationManager.CallOutcome)
    (h : ∀ i, behavior i = .rateLimited) :
    GeminiRotationManager.generate_content_async n behavior idx =
      .exhausted (n + 1) := by
  unfold GeminiRotationManager.generate_content_async
  rw [generateGo_all_rate_limited behavior n h n idx 0]
  congr 1
  omega

/-- C2 witness: the amended count at the concrete 3-credential pool. -/
theorem rotation_exhaustion_witness :
    GeminiRotationManager.generate_content_async 3 (fun _ => .rateLimited) 0 =
      .exhausted 4 :=
  rotation_exhaustion 3 0 (fun _ => .rateLimited) (fun _ => rfl)

/-!
## C1 — idempotence of the verification pipeline
-/

/-- One pipeline run never pushes the per-key TimelineItem count above 1. -/
theorem run_verification_preserves (store : List VerificationOrchestrator.TimelineRecord)
    (claim : String) (scope : Option Nat)
    (h : VerificationOrchestrator.timeline_key_count store claim scope ≤ 1) :
    VerificationOrchestrator.timeline_key_count
      (VerificationOrchestrator.run_verification_pipeline store claim scope).1 claim scope ≤ 1 := by
  unfold VerificationOrchestrator.run_verification_pipeline
  by_cases hex : store.any
      (fun r => decide (r.crisis_id = scope ∧ r.claim_text = claim)) = true
  · rw [if_pos hex]
    exact h
  · have h0 : VerificationOrchestrator.timeline_key_count store claim scope = 0 := by
      rw [VerificationOrchestrator.timeline_key_count, List.countP_eq_zero]
      intro r hr
      intro hp
      exact hex (List.any_eq_true.mpr ⟨r, hr, hp⟩)
    rw [if_neg hex]
    unfold VerificationOrchestrator.timeline_key_count at h0 ⊢
    rw [List.countP_append, h0]
    simp

/-- C1: starting from a store with no TimelineItem for this claim and scope,
any number of repeated pipeline invocations creates at most one TimelineItem
with that key, and every invocation that finds the key already present is a
no-op performing no network work. -/
theorem verification_idempotent (store : List VerificationOrchestrator.TimelineRecord)
    (claim : String) (scope : Option Nat) (n : Nat)
    (h : VerificationOrchestrator.timeline_key_count store claim scope = 0) :
    VerificationOrchestrator.timeline_key_count
      (VerificationOrchestrator.iterate_verification store claim scope n) claim scope ≤ 1
    ∧ (∀ s, 1 ≤ VerificationOrchestrator.timeline_key_count s claim scope →
        VerificationOrchestrator.run_verification_pipeline s claim scope = (s, false)) := by
  constructor
  · induction n with
    | zero =>
      simp only [VerificationOrchestrator.iterate_verification]
      exact Nat.le_trans h.le (Nat.zero_le 1)
    | succ n ih => exact run_verification_preserves _ claim scope ih
  · intro s hs
    have hex : s.any (fun r => decide (r.crisis_id = scope ∧ r.claim_text = claim)) = true := by
      obtain ⟨r, hr, hp⟩ := List.countP_pos_iff.mp (Nat.lt_of_lt_of_le Nat.zero_lt_one hs)
      exact List.any_eq_true.mpr ⟨r, hr, hp⟩
    unfold VerificationOrchestrator.run_verification_pipeline
    rw [if_pos hex]

/-- C1 witness: five repeated runs on an initially empty store leave at most
one record for the claim. -/
theorem verification_idempotent_witness :
    VerificationOrchestrator.timeline_key_count [] "dam burst" (some 1) = 0
    ∧ VerificationOrchestrator.timeline_key_count
        (VerificationOrchestrator.iterate_verification [] "dam burst" (some 1) 5)
        "dam burst" (some 1) ≤ 1 :=
  ⟨rfl, (verification_idempotent [] "dam burst" (some 1) 5 rfl).1⟩

/-!
## C3 — priority selection
-/

/-- The stable descending-severity sort used by the fallback pruning. -/
def severity_sorted (crises : List ScannerService.Crisis) : List ScannerService.Crisis :=
  List.insertionSort (fun a b => b.severity ≤ a.severity) crises

/-- With distinct ids, the survivors of the deterministic fallback are exactly
the top 10 crises by severity. -/
theorem fallback_pruning_mem (crises : List ScannerService.Crisis)
    (hids : (crises.map (·.id)).Nodup) (c : ScannerService.Crisis) :
    c ∈ ScannerService.fallback_pruning crises ↔ c ∈ (severity_sorted crises).take 10 := by
  unfold ScannerService.fallback_pruning
  simp only [List.mem_filter, decide_eq_true_eq]
  constructor
  · rintro ⟨hc, hid⟩
    rw [List.mem_map] at hid
    obtain ⟨k, hk, hkid⟩ := hid
    have hkcr : k ∈ crises :=
      (List.perm_insertionSort _ crises).mem_iff.mp (List.take_subset _ _ hk)
    have hck : c = k := List.inj_on_of_nodup_map hids hc hkcr hkid.symm
    exact hck ▸ hk
  · intro hctake
    have hccr : c ∈ crises :=
      (List.perm_insertionSort _ crises).mem_iff.mp (List.take_subset _ _ hctake)
    exact ⟨hccr, List.mem_map.mpr ⟨c, hctake, rfl⟩⟩

/-- With distinct ids, the fallback keeps at most 10 crises. -/
theorem fallback_pruning_length (crises : List ScannerService.Crisis)
    (hids : (crises.map (·.id)).Nodup) :
    (ScannerService.fallback_pruning crises).length ≤ 10 := by
  classical
  unfold ScannerService.fallback_pruning
  set keepIds := ((severity_sorted crises).take 10).map (·.id) with hkeep
  set rem := crises.filter
    (fun c => decide (c.id ∈ keepIds)) with hrem
  have hsub : (rem.map (·.id)).Sublist (crises.map (·.id)) :=
    (List.filter_sublist crises).map (·.id)
  have hnd : (rem.map (·.id)).Nodup := hids.sublist hsub
  have hss : (rem.map (·.id)).toFinset ⊆ keepIds.toFinset := by
    intro x hx
    rw [List.mem_toFinset] at hx ⊢
    obtain ⟨c, hc, rfl⟩ := List.mem_map.mp hx
    have := (List.mem_filter.mp hc).2
    rwa [decide_eq_true_eq] at this
  calc rem.length = (rem.map (·.id)).length := (List.length_map _ _).symm
    _ = (rem.map (·.id)).toFinset.card := (List.toFinset_card_of_nodup hnd).symm
    _ ≤ keepIds.toFinset.card := Finset.card_le_card hss
    _ ≤ keepIds.length := List.toFinset_card_le keepIds
    _ = ((severity_sorted crises).take 10).length := List.length_map _ _
    _ ≤ 10 := List.length_take_le 10 _

/-- C3 counterexample: when the judgment responds with 11 valid ids over an
11-crisis tracked set, the selection stage keeps all 11 — the post-run bound
of 10 fails. -/
theorem selection_cap_cex :
    (ScannerService.perform_agentic_selection cap_cex_crises
      (.response (List.range 11))).length = 11
    ∧ ¬ ((ScannerService.perform_agentic_selection cap_cex_crises
      (.response (List.range 11))).length ≤ 10) := by decide

/-- C3 (amended): with distinct ids, a nonempty judgment selection keeps
exactly the crises whose ids were selected (so only selections of at most 10
ids guarantee the cap), while an error or an empty selection triggers the
deterministic fallback: at most 10 survivors, namely exactly the top 10 by
severity descending. -/
theorem selection_amended (crises : List ScannerService.Crisis)
    (hids : (crises.map (·.id)).Nodup) :
    (∀ ids, ids ≠ [] →
      ScannerService.perform_agentic_selection crises (.response ids) =
        crises.filter (fun c => decide (c.id ∈ ids)))
    ∧ (ScannerService.perform_agentic_selection crises .error).length ≤ 10
    ∧ (∀ c, c ∈ ScannerService.perform_agentic_selection crises .error ↔
        c ∈ (severity_sorted crises).take 10)
    ∧ ScannerService.perform_agentic_selection crises (.response []) =
        ScannerService.perform_agentic_selection crises .error := by
  by_cases hcr : crises = []
  · subst hcr
    refine ⟨fun ids _ => rfl, by simp [ScannerService.perform_agentic_selection], ?_, rfl⟩
    intro c
    simp [ScannerService.perform_agentic_selection, severity_sorted, List.insertionSort]
  · refine ⟨?_, ?_, ?_, ?_⟩
    · intro ids hne
      simp only [ScannerService.perform_agentic_selection, if_neg hcr, if_neg hne]
    · simp only [ScannerService.perform_agentic_selection, if_neg hcr]
      exact fallback_pruning_length crises hids
    · intro c
      simp only [ScannerService.perform_agentic_selection, if_neg hcr]
      exact fallback_pruning_mem crises hids c
    · simp [ScannerService.perform_agentic_selection, if_neg hcr]

/-- C3 witness: the amended statement at a concrete two-crisis set. -/
theorem selection_amended_witness :
    (wit_crises.map (·.id)).Nodup
    ∧ ScannerService.perform_agentic_selection wit_crises (.response [2]) =
        wit_crises.filter (fun c => decide (c.id ∈ [2]))
    ∧ (ScannerService.perform_agentic_selection wit_crises .error).length ≤ 10 :=
  ⟨by decide, (selection_amended wit_crises (by decide)).1 [2] (by decide),
    (selection_amended wit_crises (by decide)).2.1⟩

/-!
## C4 — deep-gathering batch size
-/

/-- The fill loop appends at most one crisis per slot. -/
theorem fillNormal_length (normal_risk : List ScannerService.Crisis) :
    ∀ slots batch ptr,
      ((ScannerService.fillNormal normal_risk slots batch ptr).1).length ≤
        batch.length + slots := by
  intro slots
  induction slots with
  | zero =>
    intro batch ptr
    simp [ScannerService.fillNormal]
  | succ s ih =>
    intro batch ptr
    simp only [ScannerService.fillNormal]
    by_cases hc : normal_risk.getD (ptr % normal_risk.length) default ∈ batch
    · rw [if_pos hc]
      exact Nat.le_trans (ih batch (ptr + 1)) (by omega)
    · rw [if_neg hc]
      have := ih (batch ++ [normal_risk.getD (ptr % normal_risk.length) default]) (ptr + 1)
      rw [List.length_append] at this
      exact Nat.le_trans this (by simp; omega)

/-- The fill loop only adds members of the normal-risk list. -/
theorem fillNormal_mem (normal_risk : List ScannerService.Crisis)
    (hne : normal_risk ≠ []) :
    ∀ slots batch ptr c, c ∈ (ScannerService.fillNormal normal_risk slots batch ptr).1 →
      c ∈ batch ∨ c ∈ normal_risk := by
  intro slots
  induction slots with
  | zero =>
    intro batch ptr c hc
    simp only [ScannerService.fillNormal] at hc
    exact Or.inl hc
  | succ s ih =>
    intro batch ptr c hc
    simp only [ScannerService.fillNormal] at hc
    have hget : normal_risk.getD (ptr % normal_risk.length) default ∈ normal_risk := by
      have hpos : 0 < normal_risk.length := List.length_pos.mpr hne
      rw [List.getD_eq_getElem _ _ (Nat.mod_lt _ hpos)]
      exact List.getElem_mem _
    by_cases hx : normal_risk.getD (ptr % normal_risk.length) default ∈ batch
    · rw [if_pos hx] at hc
      exact ih batch (ptr + 1) c hc
    · rw [if_neg hx] at hc
      rcases ih _ (ptr + 1) c hc with hb | hn
      · rcases List.mem_append.mp hb with hb' | hb'
        · exact Or.inl hb'
        · exact Or.inr (List.mem_singleton.mp hb' ▸ hget)
      · exact Or.inr hn

/-- A batch never exceeds the concurrency cap by more than the number of due
high-risk crises it must carry. -/
theorem buildBatch_length (crises : List ScannerService.Crisis)
    (lastScan : Nat → Int) (now : Int) (ptr : Nat) :
    (ScannerService.buildBatch crises lastScan now ptr).1.length ≤
      max ScannerService.MAX_CONCURRENT_SCANS
        (ScannerService.due_high_risk crises lastScan now).length := by
  unfold ScannerService.buildBatch
  by_cases hcond : 0 < ScannerService.MAX_CONCURRENT_SCANS -
      (ScannerService.due_high_risk crises lastScan now).length ∧
      crises.filter (fun c => decide (c.severity < 90)) ≠ []
  · rw [if_pos hcond]
    have hfill := fillNormal_length (crises.filter (fun c => decide (c.severity < 90)))
      (ScannerService.MAX_CONCURRENT_SCANS -
        (ScannerService.due_high_risk crises lastScan now).length)
      (ScannerService.due_high_risk crises lastScan now) ptr
    refine Nat.le_trans hfill (Nat.le_trans ?_ (Nat.le_max_left _ _))
    omega
  · rw [if_neg hcond]
    exact Nat.le_max_right _ _

/-- C4 counterexample: six high-severity crises all due for a scan produce a
batch of 6, exceeding the concurrency cap of 5. -/
theorem batch_cap_cex :
    (ScannerService.buildBatch batch_cex_crises (fun _ => 0) 1000 0).1.length = 6
    ∧ ¬ ((ScannerService.buildBatch batch_cex_crises (fun _ => 0) 1000 0).1.length ≤
        ScannerService.MAX_CONCURRENT_SCANS) := by decide

/-- C4 (amended): a deep-gathering batch contains at most
`max 5 (number of due high-risk crises)` items; in particular it respects the
cap of 5 whenever at most 5 high-risk crises are due. -/
theorem batch_size_amended (crises : List ScannerService.Crisis)
    (lastScan : Nat → Int) (now : Int) (ptr : Nat) :
    ((ScannerService.due_high_risk crises lastScan now).length ≤
        ScannerService.MAX_CONCURRENT_SCANS →
      (ScannerService.buildBatch crises lastScan now ptr).1.length ≤
        ScannerService.MAX_CONCURRENT_SCANS)
    ∧ (ScannerService.buildBatch crises lastScan now ptr).1.length ≤
        max ScannerService.MAX_CONCURRENT_SCANS
          (ScannerService.due_high_risk crises lastScan now).length := by
  refine ⟨?_, buildBatch_length crises lastScan now ptr⟩
  intro h
  have := buildBatch_length crises lastScan now ptr
  omega

/-- C4 witness: the cap holds at a concrete set with one due high-risk crisis. -/
theorem batch_size_amended_witness :
    (ScannerService.due_high_risk batch_wit_crises (fun _ => 0) 1000).length ≤
      ScannerService.MAX_CONCURRENT_SCANS
    ∧ (ScannerService.buildBatch batch_wit_crises (fun _ => 0) 1000 0).1.length ≤
      ScannerService.MAX_CONCURRENT_SCANS :=
  ⟨by decide, (batch_size_amended batch_wit_crises (fun _ => 0) 1000 0).1 (by decide)⟩

/-!
## C5 — minimum re-dispatch interval for high-severity crises
-/

/-- Every batch member is either a due high-risk crisis (interval check
passed) or a normal-risk crisis from the round-robin fill. -/
theorem buildBatch_mem (crises : List ScannerService.Crisis)
    (lastScan : Nat → Int) (now : Int) (ptr : Nat) (c : ScannerService.Crisis)
    (hc : c ∈ (ScannerService.buildBatch crises lastScan now ptr).1) :
    (c ∈ crises ∧ 90 ≤ c.severity ∧
      ScannerService.HIGH_RISK_SCAN_INTERVAL < now - lastScan c.id)
    ∨ (c ∈ crises ∧ c.severity < 90) := by
  have hdue : ∀ d, d ∈ ScannerService.due_high_risk crises lastScan now →
      d ∈ crises ∧ 90 ≤ d.severity ∧
        ScannerService.HIGH_RISK_SCAN_INTERVAL < now - lastScan d.id := by
    intro d hd
    unfold ScannerService.due_high_risk at hd
    obtain ⟨hd1, hd2⟩ := List.mem_filter.mp hd
    obtain ⟨hd3, hd4⟩ := List.mem_filter.mp hd1
    rw [decide_eq_true_eq] at hd2 hd4
    exact ⟨hd3, hd4, hd2⟩
  unfold ScannerService.buildBatch at hc
  by_cases hcond : 0 < ScannerService.MAX_CONCURRENT_SCANS -
      (ScannerService.due_high_risk crises lastScan now).length ∧
      crises.filter (fun c => decide (c.severity < 90)) ≠ []
  · rw [if_pos hcond] at hc
    rcases fillNormal_mem _ hcond.2 _ _ _ c hc with hb | hn
    · exact Or.inl (hdue c hb)
    · obtain ⟨h1, h2⟩ := List.mem_filter.mp hn
      rw [decide_eq_true_eq] at h2
      exact Or.inr ⟨h1, h2⟩
  · rw [if_neg hcond] at hc
    exact Or.inl (hdue c hc)

/-- Core induction for C5: along any tick sequence during which every crisis
carrying id `x` is high-severity, the sub-trace of batches containing `x` has
strictly-more-than-120 gaps between consecutive dispatch times, and its first
dispatch lies more than 120 past the entry `lastScan` value for `x`. -/
theorem runTicks_filter_chain (x : Nat) :
    ∀ (ticks : List ScannerService.TickInput) (s : ScannerService.SchedState),
      (∀ t ∈ ticks, ∀ c ∈ t.crises, c.id = x → 90 ≤ c.severity) →
      (∀ e, ((ScannerService.runTicks s ticks).filter
          (fun b => decide (x ∈ b.1))).head? = some e →
          s.lastScan x + 120 < e.2)
      ∧ List.Chain' (fun a b => a.2 + 120 < b.2)
          ((ScannerService.runTicks s ticks).filter (fun b => decide (x ∈ b.1))) := by
  intro ticks
  induction ticks with
  | nil =>
    intro s _
    refine ⟨fun e he => ?_, by simp [ScannerService.runTicks]⟩
    simp [ScannerService.runTicks] at he
  | cons t ts ih =>
    intro s hsev
    have hsev_ts : ∀ t' ∈ ts, ∀ c ∈ t'.crises, c.id = x → 90 ≤ c.severity :=
      fun t' ht' => hsev t' (List.mem_cons_of_mem _ ht')
    obtain ⟨ihead, ichain⟩ := ih (ScannerService.runTick s t).1 hsev_ts
    by_cases hx : x ∈ (ScannerService.runTick s t).2.1
    · have hx' : x ∈ (ScannerService.buildBatch t.crises s.lastScan t.now s.ptr).1.map (·.id) := hx
      have hbound : s.lastScan x + 120 < t.now := by
        obtain ⟨c, hcb, hcid⟩ := List.mem_map.mp hx'
        rcases buildBatch_mem t.crises s.lastScan t.now s.ptr c hcb with hhigh | hlow
        · have htime := hhigh.2.2
          rw [hcid] at htime
          have h120 : ScannerService.HIGH_RISK_SCAN_INTERVAL = 120 := rfl
          omega
        · have h90 := hsev t (List.mem_cons_self t ts) c hlow.1 hcid
          omega
      have hls : (ScannerService.runTick s t).1.lastScan x = t.now := by
        show (if x ∈ (ScannerService.buildBatch t.crises s.lastScan t.now s.ptr).1.map (·.id)
          then t.now else s.lastScan x) = t.now
        rw [if_pos hx']
      have hfilter : (ScannerService.runTicks s (t :: ts)).filter
            (fun b => decide (x ∈ b.1)) =
          (ScannerService.runTick s t).2 ::
            (ScannerService.runTicks (ScannerService.runTick s t).1 ts).filter
              (fun b => decide (x ∈ b.1)) := by
        simp only [ScannerService.runTicks]
        exact List.filter_cons_of_pos (decide_eq_true hx)
      constructor
      · intro e he
        rw [hfilter] at he
        simp only [List.head?_cons, Option.some_inj] at he
        subst he
        exact hbound
      · rw [hfilter, List.chain'_cons']
        refine ⟨?_, ichain⟩
        intro y hy
        have h2 := ihead y (Option.mem_def.mp hy)
        rw [hls] at h2
        exact h2
    · have hx' : ¬ x ∈ (ScannerService.buildBatch t.crises s.lastScan t.now s.ptr).1.map (·.id) := hx
      have hls : (ScannerService.runTick s t).1.lastScan x = s.lastScan x := by
        show (if x ∈ (ScannerService.buildBatch t.crises s.lastScan t.now s.ptr).1.map (·.id)
          then t.now else s.lastScan x) = s.lastScan x
        rw [if_neg hx']
      have hfilter : (ScannerService.runTicks s (t :: ts)).filter
            (fun b => decide (x ∈ b.1)) =
          (ScannerService.runTicks (ScannerService.runTick s t).1 ts).filter
            (fun b => decide (x ∈ b.1)) := by
        simp only [ScannerService.runTicks]
        exact List.filter_cons_of_neg (by simpa using hx)
      rw [hfilter]
      exact ⟨fun e he => hls ▸ ihead e he, ichain⟩

/-- C5: along any run of the deep-gathering scheduler from its initial state,
if every tracked-set entry carrying a given crisis id is high-severity
(`severity ≥ 90`), then any two dispatched batches containing that crisis are
at least 120 seconds apart. -/
theorem high_risk_dispatch_spacing (ticks : List ScannerService.TickInput) (x : Nat)
    (hsev : ∀ t ∈ ticks, ∀ c ∈ t.crises, c.id = x → 90 ≤ c.severity) :
    ((ScannerService.runTicks ScannerService.initialSchedState ticks).filter
        (fun b => decide (x ∈ b.1))).Pairwise (fun a b => a.2 + 120 ≤ b.2) := by
  have hchain := (runTicks_filter_chain x ticks ScannerService.initialSchedState hsev).2
  haveI : IsTrans (List Nat × Int) (fun a b => a.2 + 120 < b.2) :=
    ⟨fun a b c hab hbc => by omega⟩
  exact (List.chain'_iff_pairwise.mp hchain).imp (fun h => le_of_lt h)

/-- C5 witness: two ticks 200 s apart both dispatch the high-severity crisis,
and the spacing property holds on the resulting trace. -/
theorem high_risk_dispatch_spacing_witness :
    (∀ t ∈ spacing_ticks, ∀ c ∈ t.crises, c.id = 7 → 90 ≤ c.severity)
    ∧ ((ScannerService.runTicks ScannerService.initialSchedState spacing_ticks).filter
        (fun b => decide (7 ∈ b.1))).Pairwise (fun a b => a.2 + 120 ≤ b.2) :=
  ⟨by decide, high_risk_dispatch_spacing spacing_ticks 7 (by decide)⟩

end SentinelAI
